import Mathlib

/-!
Verification of the zone-matching / change-application core of
external-dns-infoblox-webhook against its natural-language specification.

The development shallowly embeds the two source files:
  * `internal/infoblox/infoblox_test.go` — the mock record-store connector
    (`mockIBConnector` with `CreateObject`, `GetObject`, `UpdateObject`,
    `DeleteObject`), which is the authoritative in-repo implementation of the
    record-store client capability the spec describes;
  * `pkg/webhook/mediatype.go` — the media-type header check.

Go `*string` record fields are viewed through the provider's `AsString`
helper (nil and `""` both map to `""`); machine strings are Lean `String`s
and the byte-level operations of the Go standard library (`strings.Contains`,
`strings.HasSuffix`, `encoding/base64`, `net.ParseIP`) are modelled
character-wise below, which agrees with the byte-level behaviour on the
ASCII data the connector handles.
-/

namespace InfobloxWebhook

/-- Decide whether `ndl` occurs contiguously in `hay`. -/
def containsChars (ndl : List Char) : List Char → Bool
  | [] => ndl.isEmpty
  | c :: rest => ndl.isPrefixOf (c :: rest) || containsChars ndl rest

/-- Models Go `strings.Contains hay ndl` (character-wise). -/
def containsStr (hay ndl : String) : Bool :=
  containsChars ndl.data hay.data

/-- Models Go `strings.HasSuffix s suf` (character-wise). -/
def endsWithStr (s suf : String) : Bool :=
  suf.data.isSuffixOf s.data

/-! ### `encoding/base64` StdEncoding and UTF-8 bytes -/

/-- The standard base64 alphabet, as in Go `encoding/base64.StdEncoding`. -/
def b64Alphabet : List Char :=
  "ABCDEFGHIJKLMNOPQRSTUVWXYZabcdefghijklmnopqrstuvwxyz0123456789+/".data

/-- The base64 digit for a 6-bit value. -/
def b64Char (n : Nat) : Char := b64Alphabet.getD n 'A'

/-- Base64-encode a byte list, three bytes to four digits, `=`-padded,
as in Go `base64.StdEncoding.EncodeToString`. -/
def base64Chunks : List Nat → List Char
  | [] => []
  | [a] => [b64Char (a / 4), b64Char (a % 4 * 16), '=', '=']
  | [a, b] => [b64Char (a / 4), b64Char (a % 4 * 16 + b / 16), b64Char (b % 16 * 4), '=']
  | a :: b :: c :: rest =>
      b64Char (a / 4) :: b64Char (a % 4 * 16 + b / 16) ::
      b64Char (b % 16 * 4 + c / 64) :: b64Char (c % 64) :: base64Chunks rest

/-- Models Go `base64.StdEncoding.EncodeToString`. -/
def base64Std (bytes : List Nat) : String := ⟨base64Chunks bytes⟩

/-- UTF-8 encoding of one code point as byte values. -/
def utf8Char (n : Nat) : List Nat :=
  if n < 128 then [n]
  else if n < 2048 then [192 + n / 64, 128 + n % 64]
  else if n < 65536 then [224 + n / 4096, 128 + n / 64 % 64, 128 + n % 64]
  else [240 + n / 262144, 128 + n / 4096 % 64, 128 + n / 64 % 64, 128 + n % 64]

/-- The UTF-8 bytes of a string, as Go's `[]byte(s)` conversion. -/
def utf8Bytes (s : String) : List Nat :=
  s.data.foldr (fun c acc => utf8Char c.toNat ++ acc) []

/-! ### IPv4 parsing and `dns.ReverseAddr` -/

/-- Split a character list at every occurrence of `c` (Go `strings.Split`). -/
def splitOnChar (c : Char) : List Char → List (List Char)
  | [] => [[]]
  | x :: xs =>
    if x = c then [] :: splitOnChar c xs
    else
      match splitOnChar c xs with
      | [] => [[x]]
      | h :: t => (x :: h) :: t

/-- Decimal value of a digit list. -/
def digitsVal (l : List Char) : Nat :=
  l.foldl (fun a c => a * 10 + (c.toNat - 48)) 0

/-- One dotted-quad octet: 1–3 decimal digits, no leading zero, value ≤ 255,
per Go's IP-literal parsing rules. -/
def parseOctet (l : List Char) : Option Nat :=
  if l = [] then none
  else if ¬ l.all (fun c => c.isDigit) then none
  else if 3 < l.length then none
  else if l.headD '0' = '0' ∧ 1 < l.length then none
  else if digitsVal l ≤ 255 then some (digitsVal l) else none

/-- Modelled from the dependency `net.ParseIP`, restricted to IPv4
dotted-quad literals (the only address shape the connector's `Ipv4Addr`
fields carry); other inputs are not valid addresses of the embedding. -/
def parseIPv4 (s : String) : Option (Nat × Nat × Nat × Nat) :=
  match splitOnChar '.' s.data with
  | [a, b, c, d] =>
    match parseOctet a, parseOctet b, parseOctet c, parseOctet d with
    | some w, some x, some y, some z => some (w, x, y, z)
    | _, _, _, _ => none
  | _ => none

/-- Modelled from the dependency `github.com/miekg/dns.ReverseAddr` on the
IPv4 domain of `parseIPv4`: the octets reversed under `in-addr.arpa.`,
`none` when the address does not parse (Go returns an error then). -/
def dnsReverseAddr (addr : String) : Option String :=
  match parseIPv4 addr with
  | none => none
  | some (a, b, c, d) =>
    some (toString d ++ "." ++ toString c ++ "." ++ toString b ++ "." ++
          toString a ++ ".in-addr.arpa.")

/-! ### Data model of the mock connector (`infoblox_test.go`)

`IBObj` is the embedding of the `ibclient.IBObject` values the connector
stores and dispatches on: one record with the union of the fields of
`RecordA`, `RecordCNAME`, `HostRecord`, `RecordTXT` and `RecordPTR`, tagged
by `rtype = ObjectType()`. Pointer-valued string fields are viewed through
`AsString` (nil ≡ `""`); `HostRecord.Ipv4Addrs` is the list of its
(always-set) `Ipv4Addr` sub-fields. -/

structure ZoneAuth where
  fqdn : String
  deriving DecidableEq

structure IBObj where
  rtype : String
  ref : String
  name : String
  ipv4Addr : String
  ipv4Addrs : List String
  canonical : String
  text : String
  ptrdName : String
  zone : String
  deriving DecidableEq

/-- The all-empty object, as produced by the `ibclient.NewEmptyRecordX`
constructors. -/
def emptyObj : IBObj := ⟨"", "", "", "", [], "", "", "", ""⟩

/-- Embedding of `endpoint.Endpoint` under `endpoint.NewEndpoint(dnsName,
recordType, targets...)`: the construction arguments, positionally. -/
structure Endpoint where
  dnsName : String
  recordType : String
  targets : List String
  deriving DecidableEq

/-- One logged `GetObject` request: object type, ref and the query-parameter
string (the test-harness `url`/`verified` fields are omitted: nothing in the
connector's behaviour reads them). -/
structure GetReq where
  obj : String
  ref : String
  queryParams : String
  deriving DecidableEq

/-- The `mockIBConnector` state: the two store pointers and the recorded
endpoint/request slices. -/
structure MockIBConnector where
  mockInfobloxZones : List ZoneAuth
  mockInfobloxObjects : List IBObj
  createdEndpoints : List Endpoint
  deletedEndpoints : List Endpoint
  updatedEndpoints : List Endpoint
  getObjectRequests : List GetReq
  deriving DecidableEq

def recordA : String := "record:a"
def recordCname : String := "record:cname"
def recordHost : String := "record:host"
def recordTxt : String := "record:txt"
def recordPtr : String := "record:ptr"

/-! ### `mockIBConnector.CreateObject` -/

/-- Embedding of `mockIBConnector.CreateObject`. Returns the new state, the
returned `ref` and the returned error (`none` = nil). Notes tied to the
source: the reference is the `fmt.Sprintf("%s/%s:%s/default", ...)`
concatenation; in the `record:txt` and `record:ptr` branches the source
assigns `obj.Ref = ref` *before* `ref` is computed, so the stored copy keeps
`Ref = ""`; in the `record:ptr` branch a failing `dns.ReverseAddr` returns
early, before the object is appended to the store. -/
def CreateObject (s : MockIBConnector) (o : IBObj) :
    MockIBConnector × String × Option String :=
  if o.rtype = recordA then
    let ref := o.rtype ++ "/" ++ base64Std (utf8Bytes o.name) ++ ":" ++ o.name ++ "/default"
    ({s with createdEndpoints := s.createdEndpoints ++ [⟨o.name, "A", [o.ipv4Addr]⟩],
             mockInfobloxObjects := s.mockInfobloxObjects ++ [{o with ref := ref}]},
     ref, none)
  else if o.rtype = recordCname then
    let ref := o.rtype ++ "/" ++ base64Std (utf8Bytes o.name) ++ ":" ++ o.name ++ "/default"
    ({s with createdEndpoints := s.createdEndpoints ++ [⟨o.name, "CNAME", [o.canonical]⟩],
             mockInfobloxObjects := s.mockInfobloxObjects ++ [{o with ref := ref}]},
     ref, none)
  else if o.rtype = recordHost then
    let ref := o.rtype ++ "/" ++ base64Std (utf8Bytes o.name) ++ ":" ++ o.name ++ "/default"
    ({s with createdEndpoints :=
               s.createdEndpoints ++ o.ipv4Addrs.map (fun ip => ⟨o.name, "A", [ip]⟩),
             mockInfobloxObjects := s.mockInfobloxObjects ++ [{o with ref := ref}]},
     ref, none)
  else if o.rtype = recordTxt then
    let ref := o.rtype ++ "/" ++ base64Std (utf8Bytes o.name) ++ ":" ++ o.name ++ "/default"
    ({s with createdEndpoints := s.createdEndpoints ++ [⟨o.name, "TXT", [o.text]⟩],
             mockInfobloxObjects := s.mockInfobloxObjects ++ [{o with ref := ""}]},
     ref, none)
  else if o.rtype = recordPtr then
    let s1 := {s with createdEndpoints :=
                        s.createdEndpoints ++ [⟨o.ptrdName, "PTR", [o.ipv4Addr]⟩]}
    match dnsReverseAddr o.ipv4Addr with
    | none => (s1, "", some ("unable to create reverse addr from " ++ o.ipv4Addr))
    | some ra =>
      let ref := o.rtype ++ "/" ++ base64Std (utf8Bytes o.ptrdName) ++ ":" ++ ra ++ "/default"
      ({s1 with mockInfobloxObjects := s1.mockInfobloxObjects ++ [{o with ref := ""}]},
       ref, none)
  else
    ({s with mockInfobloxObjects := s.mockInfobloxObjects ++ [o]}, "", none)

/-! ### `mockIBConnector.GetObject` -/

/-- The type-specific "exact value plus name" needle each `GetObject` branch
interpolates into its first `strings.Contains` test. `none` in the
`record:host` case models the panic of `object.Ipv4Addrs[0]` on an
address-less host record. -/
def vnNeedle (ty : String) (o : IBObj) : Option String :=
  if ty = recordA then some ("ipv4addr:" ++ o.ipv4Addr ++ " name:" ++ o.name)
  else if ty = recordCname then some ("name:" ++ o.name)
  else if ty = recordHost then
    match o.ipv4Addrs with
    | [] => none
    | a :: _ => some ("ipv4addrs:" ++ a ++ " name:" ++ o.name)
  else if ty = recordTxt then some ("text:" ++ o.text ++ " name:" ++ o.name)
  else if ty = recordPtr then some ("ipv4addr:" ++ o.ipv4Addr ++ " name:" ++ o.name)
  else none

/-- The name filter of each `GetObject` branch: `true` skips the stored
object `o`. For the four forward types this is
`AsString(tmpl.Name) != "" && AsString(tmpl.Name) != AsString(o.Name)`.
The `record:ptr` branch compares the `PtrdName` *pointers*
(`tmpl.PtrdName != o.PtrdName`), which in the connector always compares two
distinct allocations, so a non-empty template `PtrdName` always skips. -/
def nameSkip (ty : String) (tmpl o : IBObj) : Bool :=
  if ty = recordPtr then tmpl.ptrdName ≠ ""
  else tmpl.name ≠ "" ∧ tmpl.name ≠ o.name

/-- The per-stored-object body of a `GetObject` loop: the (possibly twice
appended) contribution of `o` to the result, `none` when evaluating the
needle panics. Mirrors the source order: append on `ref == o.Ref`; `continue`
on a non-empty, different `ref`; `continue` on the name filter; append when
the query-parameter string contains the value+name needle or the
`zone:` needle. -/
def procObj (ty : String) (tmpl : IBObj) (ref qp : String) (o : IBObj) :
    Option (List IBObj) :=
  if ref ≠ "" ∧ ref ≠ o.ref then some (if ref = o.ref then [o] else [])
  else if nameSkip ty tmpl o then some (if ref = o.ref then [o] else [])
  else
    match vnNeedle ty o with
    | none => none
    | some ndl =>
      if containsStr qp ndl then some ((if ref = o.ref then [o] else []) ++ [o])
      else if containsStr qp ("zone:" ++ o.zone) then
        some ((if ref = o.ref then [o] else []) ++ [o])
      else some (if ref = o.ref then [o] else [])

/-- The `GetObject` loop over the object store for one record type. -/
def getLoop (ty : String) (tmpl : IBObj) (ref qp : String) :
    List IBObj → Option (List IBObj)
  | [] => some []
  | o :: rest =>
    if o.rtype = ty then
      match procObj ty tmpl ref qp o with
      | none => none
      | some hd =>
        match getLoop ty tmpl ref qp rest with
        | none => none
        | some tl => some (hd ++ tl)
    else getLoop ty tmpl ref qp rest

/-- What a `GetObject` call writes into `res`: a record list for the five
record types, the zone list for `"zone_auth"`, nothing for other types. -/
inductive GetRes where
  | recs : List IBObj → GetRes
  | zoneAuths : List ZoneAuth → GetRes
  | untouched : GetRes
  deriving DecidableEq

/-- The result value of `mockIBConnector.GetObject` as a pure function of the
object store and zone list; `qp` is the `fmt.Sprint(queryParams)` string
(`""` for a nil `queryParams`). `none` models a panic. -/
def GetObjectRes (objects : List IBObj) (zones : List ZoneAuth)
    (tmpl : IBObj) (ref qp : String) : Option GetRes :=
  if tmpl.rtype = recordA ∨ tmpl.rtype = recordCname ∨ tmpl.rtype = recordHost ∨
     tmpl.rtype = recordTxt ∨ tmpl.rtype = recordPtr then
    (getLoop tmpl.rtype tmpl ref qp objects).map GetRes.recs
  else if tmpl.rtype = "zone_auth" then some (GetRes.zoneAuths zones)
  else some GetRes.untouched

/-- Embedding of `mockIBConnector.GetObject`: logs the request (which the
source does before the type switch) and computes the result. -/
def GetObject (s : MockIBConnector) (tmpl : IBObj) (ref qp : String) :
    Option (MockIBConnector × GetRes) :=
  let s' := {s with getObjectRequests := s.getObjectRequests ++ [⟨tmpl.rtype, ref, qp⟩]}
  (GetObjectRes s.mockInfobloxObjects s.mockInfobloxZones tmpl ref qp).map
    (fun r => (s', r))

/-! ### The reference pattern and `mockIBConnector.DeleteObject` -/

/-- A match of `([^/]+)/[^:]+:([^/]+)/default` starting at the head of `l`,
returning the two submatches. Backtracking is vacuous for this pattern: each
`[^x]+` piece is a maximal run bounded by the first following `x`, and a
shorter run would place a non-matching character under the next literal, so
the greedy scan below is the regular-expression semantics. -/
def matchAt (l : List Char) : Option (String × String) :=
  let p1 := l.span (fun c => c ≠ '/')
  if p1.1 = [] then none
  else
    match p1.2 with
    | '/' :: r2 =>
      let p2 := r2.span (fun c => c ≠ ':')
      if p2.1 = [] then none
      else
        match p2.2 with
        | ':' :: r4 =>
          let p3 := r4.span (fun c => c ≠ '/')
          if p3.1 = [] then none
          else if "/default".data.isPrefixOf p3.2 then some (⟨p1.1⟩, ⟨p3.1⟩)
          else none
        | _ => none
    | _ => none

/-- The leftmost match: try `matchAt` at every start position. -/
def parseRefAux : List Char → Option (String × String)
  | [] => none
  | c :: rest =>
    match matchAt (c :: rest) with
    | some r => some r
    | none => parseRefAux rest

/-- Models `regexp.MustCompile("([^/]+)/[^:]+:([^/]+)/default").FindStringSubmatch`:
`some (result[1], result[2])` on a match, `none` when there is no match (the
Go call returns nil then). -/
def parseRef (s : String) : Option (String × String) := parseRefAux s.data

/-- The deleted-endpoint constructor of each `DeleteObject` branch:
`endpoint.NewEndpoint(name, recordType, "")` with the name taken from
`PtrdName` for `record:ptr` and `Name` otherwise, and the `record:host`
branch using record type `"A"`. -/
def delEndpoint (ty : String) (r : IBObj) : Endpoint :=
  ⟨if ty = recordPtr then r.ptrdName else r.name,
   if ty = recordA ∨ ty = recordHost then "A"
   else if ty = recordCname then "CNAME"
   else if ty = recordTxt then "TXT"
   else "PTR",
   [""]⟩

/-- Embedding of `mockIBConnector.DeleteObject`. The source indexes
`result[1]` without checking `FindStringSubmatch` for nil, so an unmatched
reference is a panic: modelled as `none`. On a match, the five type cases
all run `GetObject` with an empty record carrying `Name = &result[2]` and a
nil `queryParams`, append one deleted endpoint per returned record, and
return `("", nil)`; an unknown type falls through the switch to
`("", nil)` directly. -/
def DeleteObject (s : MockIBConnector) (ref : String) :
    Option (MockIBConnector × String × Option String) :=
  match parseRef ref with
  | none => none
  | some (ty, nm) =>
    if ty = recordA ∨ ty = recordCname ∨ ty = recordHost ∨
       ty = recordTxt ∨ ty = recordPtr then
      match GetObject s {emptyObj with rtype := ty, name := nm} ref "" with
      | none => none
      | some (s1, res) =>
        let recs := match res with | GetRes.recs l => l | _ => []
        some ({s1 with deletedEndpoints :=
                         s1.deletedEndpoints ++ recs.map (delEndpoint ty)},
              "", none)
    else some (s, "", none)

/-! ### `mockIBConnector.UpdateObject` -/

/-- Embedding of `mockIBConnector.UpdateObject`. The source builds its
endpoints as `NewEndpoint(name, value, RecordTypeX)`, i.e. with the record
value in the record-type position and the type constant as the single
target; the embedding reproduces that argument order. The `ref` parameter is
unused, and the return is always `("", nil)`. -/
def UpdateObject (s : MockIBConnector) (o : IBObj) (ref : String) :
    MockIBConnector × String × Option String :=
  if o.rtype = recordA then
    ({s with updatedEndpoints := s.updatedEndpoints ++ [⟨o.name, o.ipv4Addr, ["A"]⟩]},
     "", none)
  else if o.rtype = recordCname then
    ({s with updatedEndpoints := s.updatedEndpoints ++ [⟨o.name, o.canonical, ["CNAME"]⟩]},
     "", none)
  else if o.rtype = recordHost then
    ({s with updatedEndpoints :=
               s.updatedEndpoints ++ o.ipv4Addrs.map (fun ip => ⟨o.name, ip, ["A"]⟩)},
     "", none)
  else if o.rtype = recordTxt then
    ({s with updatedEndpoints := s.updatedEndpoints ++ [⟨o.name, o.text, ["TXT"]⟩]},
     "", none)
  else (s, "", none)

/-! ### Sequences of connector calls -/

/-- One call to the connector, with its arguments (`getOp` carries the
query-parameter string, `""` for a nil `queryParams`). -/
inductive MockOp where
  | createOp : IBObj → MockOp
  | getOp : IBObj → String → String → MockOp
  | updateOp : IBObj → String → MockOp
  | deleteOp : String → MockOp

/-- Run one connector call for its state effect; `none` models a panic. -/
def runOp (s : MockIBConnector) : MockOp → Option MockIBConnector
  | MockOp.createOp o => some (CreateObject s o).1
  | MockOp.getOp t ref qp => (GetObject s t ref qp).map (fun r => r.1)
  | MockOp.updateOp o ref => some (UpdateObject s o ref).1
  | MockOp.deleteOp ref => (DeleteObject s ref).map (fun r => r.1)

/-- Run a sequence of connector calls, stopping at a panic. -/
def runOps (s : MockIBConnector) : List MockOp → Option MockIBConnector
  | [] => some s
  | op :: rest =>
    match runOp s op with
    | none => none
    | some s1 => runOps s1 rest

/-! ### Forward zone selection

Modelled from the spec: the provider's `findZone` lives in the provider
source (`internal/infoblox/infoblox.go`), which is not part of the source
tree here — only its test is. §4.1: "Forward match: among zones whose Fqdn
is a suffix of `name` (dot-boundary aware: `name == Fqdn` or `name` ends
with `"." + Fqdn`), pick the one with the longest Fqdn (most specific). No
match → nil"; ties keep the first zone in input order (§4.1 tie-break). -/

/-- Dot-boundary-aware suffix match of a zone against a candidate name. -/
def zoneMatches (name : String) (z : ZoneAuth) : Bool :=
  name = z.fqdn ∨ endsWithStr name ("." ++ z.fqdn)

/-- One step of the longest-match scan: replace the best match so far only
by a strictly longer matching zone. -/
def fzStep (name : String) (best : Option ZoneAuth) (z : ZoneAuth) : Option ZoneAuth :=
  if zoneMatches name z then
    match best with
    | none => some z
    | some b => if b.fqdn.length < z.fqdn.length then some z else some b
  else best

/-- Modelled from the spec: `findZone` (§4.1 forward match). -/
def findZone (zones : List ZoneAuth) (name : String) : Option ZoneAuth :=
  zones.foldl (fzStep name) none

/-! ### `pkg/webhook/mediatype.go` -/

def mediaTypeFormat : String := "application/external.dns.webhook+json;"

def supportedMediaVersions : String := "1"

/-- Embedding of `mediaTypeVersion` (the `mediaType` string type is kept as
`String`). -/
def mediaTypeVersion (v : String) : String :=
  mediaTypeFormat ++ "version=" ++ v

/-- Embedding of `mediaType.Is`. -/
def mediaTypeIs (m headerValue : String) : Bool := m = headerValue

/-- Models Go `strings.Split(s, ",")`. -/
def goSplitComma (s : String) : List String :=
  (splitOnChar ',' s.data).map (fun l => ⟨l⟩)

/-- Embedding of `checkAndGetMediaTypeHeaderValue`: the first supported
version whose media type equals `value`, else an `Unsupported media type
version` error built over the supported list (note the source compares the
loop index against `len(supportedMediaVersions)-1`, the length of the
*string*). -/
def checkAndGetMediaTypeHeaderValue (value : String) : String × Option String :=
  match (goSplitComma supportedMediaVersions).find?
      (fun v => mediaTypeIs (mediaTypeVersion v) value) with
  | some v => (v, none)
  | none =>
    let supported := ((goSplitComma supportedMediaVersions).enum).foldl
      (fun acc p =>
        let sep := if p.1 < supportedMediaVersions.length - 1 then ", " else ""
        acc ++ mediaTypeVersion p.2 ++ sep) ""
    ("", some ("Unsupported media type version: '" ++ value ++
               "'. Supported media types are: '" ++ supported ++ "'"))

/-! ## Theorems -/

/-- Reference construction in the spec's words (§4.2): the deterministic
form `type/base64(name):discriminator/default`. -/
def specRef (ty nm disc : String) : String :=
  ty ++ "/" ++ base64Std (utf8Bytes nm) ++ ":" ++ disc ++ "/default"

/-- C1: for every record object of the five record types (with a valid
address in the PTR case), `CreateObject` returns the reference
`ObjectType(o)/base64(name):discriminator/default`, where the name is the
record name (`PtrdName` for PTR) and the discriminator is the record name
for the forward types and the reverse-DNS encoding of `Ipv4Addr` for PTR. -/
theorem C1_createObject_reference (s : MockIBConnector) (o : IBObj) :
    ((o.rtype = recordA ∨ o.rtype = recordCname ∨ o.rtype = recordHost ∨
      o.rtype = recordTxt) →
      (CreateObject s o).2.1 = specRef o.rtype o.name o.name)
  ∧ (o.rtype = recordPtr → ∀ ra, dnsReverseAddr o.ipv4Addr = some ra →
      (CreateObject s o).2.1 = specRef o.rtype o.ptrdName ra) := by
  constructor
  · intro h
    rcases h with h | h | h | h <;>
      simp [CreateObject, specRef, h, recordA, recordCname, recordHost, recordTxt, recordPtr]
  · intro h ra hra
    simp [CreateObject, specRef, h, hra, recordA, recordCname, recordHost, recordTxt, recordPtr]

def c1Obj : IBObj :=
  { emptyObj with rtype := "record:a", name := "nginx.example.com", ipv4Addr := "1.2.3.4" }

def emptyConnector : MockIBConnector := ⟨[], [], [], [], [], []⟩

/-- Witness for C1 at a concrete A record. -/
theorem C1_createObject_reference_witness :
    (c1Obj.rtype = recordA ∨ c1Obj.rtype = recordCname ∨ c1Obj.rtype = recordHost ∨
      c1Obj.rtype = recordTxt)
  ∧ (CreateObject emptyConnector c1Obj).2.1 = specRef c1Obj.rtype c1Obj.name c1Obj.name :=
  ⟨Or.inl rfl, (C1_createObject_reference emptyConnector c1Obj).1 (Or.inl rfl)⟩

/-- C4: `CreateObject` on a `record:ptr` object returns an error exactly when
`Ipv4Addr` is not a valid address (reverse-DNS construction fails); in the
error case the object store is unchanged; every other object type never
returns an error. -/
theorem C4_createObject_ptr_error (s : MockIBConnector) (o : IBObj) :
    (o.rtype = recordPtr →
      (((CreateObject s o).2.2 ≠ none) ↔ dnsReverseAddr o.ipv4Addr = none)
      ∧ (dnsReverseAddr o.ipv4Addr = none →
          (CreateObject s o).1.mockInfobloxObjects = s.mockInfobloxObjects))
  ∧ (o.rtype ≠ recordPtr → (CreateObject s o).2.2 = none) := by
  constructor
  · intro h
    cases hra : dnsReverseAddr o.ipv4Addr with
    | none =>
      simp [CreateObject, h, hra, recordA, recordCname, recordHost, recordTxt, recordPtr]
    | some ra =>
      simp [CreateObject, h, hra, recordA, recordCname, recordHost, recordTxt, recordPtr]
  · intro hne
    unfold CreateObject
    split_ifs with h1 h2 h3 h4 <;> rfl

def c4Obj : IBObj :=
  { emptyObj with rtype := "record:ptr", ptrdName := "h.example.com", ipv4Addr := "bad-ip" }

/-- Witness for C4 at a concrete PTR record with an invalid address. -/
theorem C4_createObject_ptr_error_witness :
    c4Obj.rtype = recordPtr
  ∧ (((CreateObject emptyConnector c4Obj).2.2 ≠ none) ↔
        dnsReverseAddr c4Obj.ipv4Addr = none)
  ∧ (dnsReverseAddr c4Obj.ipv4Addr = none →
        (CreateObject emptyConnector c4Obj).1.mockInfobloxObjects =
          emptyConnector.mockInfobloxObjects) :=
  ⟨rfl, (C4_createObject_ptr_error emptyConnector c4Obj).1 rfl⟩

/-- C5 (code bug): `DeleteObject` indexes `result[1]` without checking
`FindStringSubmatch` for nil, so any reference the pattern does not match —
such as the empty string — panics (modelled as `none`) instead of being
treated as a record-level failure. -/
theorem C5_deleteObject_unparseable_ref_panics :
    parseRef "" = none ∧ DeleteObject emptyConnector "" = none :=
  ⟨rfl, rfl⟩

def c9Obj : IBObj :=
  { emptyObj with rtype := "record:a", ref := "ref-1", name := "foo.example.com",
                  ipv4Addr := "1.2.3.4", zone := "example.com" }

/-- C9: a `GetObject` call whose non-empty `ref` equals a stored object's
`Ref` appends the object once for the ref match and, when the name and
query-parameter filters also pass, appends it a second time: the result list
contains the same stored object twice. -/
theorem C9_getObject_duplicate_result :
    GetObjectRes [c9Obj] [] {emptyObj with rtype := "record:a"} "ref-1" "zone:example.com"
      = some (GetRes.recs [c9Obj, c9Obj]) := by rfl

/-- C10: the media-type check accepts exactly the string
`application/external.dns.webhook+json;version=1`, returning version `"1"`
and no error; every other value yields an empty version and a non-nil
`Unsupported media type version` error. -/
theorem C10_checkAndGetMediaTypeHeaderValue (v : String) :
    (checkAndGetMediaTypeHeaderValue v = ("1", none) ↔
      v = "application/external.dns.webhook+json;version=1")
  ∧ (v ≠ "application/external.dns.webhook+json;version=1" →
      (checkAndGetMediaTypeHeaderValue v).1 = ""
      ∧ (checkAndGetMediaTypeHeaderValue v).2 ≠ none) := by
  have hmiss : ∀ w : String, mediaTypeVersion "1" ≠ w →
      (checkAndGetMediaTypeHeaderValue w).1 = ""
      ∧ ∃ m, (checkAndGetMediaTypeHeaderValue w).2 = some m := by
    intro w hw
    have hfind : (goSplitComma supportedMediaVersions).find?
        (fun x => mediaTypeIs (mediaTypeVersion x) w) = none := by
      have hone : goSplitComma supportedMediaVersions = ["1"] := by rfl
      rw [hone]
      have : mediaTypeIs (mediaTypeVersion "1") w = false := by
        unfold mediaTypeIs
        exact decide_eq_false hw
      simp [List.find?, this]
    unfold checkAndGetMediaTypeHeaderValue
    rw [hfind]
    exact ⟨rfl, ⟨_, rfl⟩⟩
  constructor
  · constructor
    · intro h
      by_contra hne
      obtain ⟨_, m, h2⟩ := hmiss v (fun he => hne (by rw [← he]; rfl))
      rw [h] at h2
      exact Option.noConfusion h2
    · intro h
      subst h
      rfl
  · intro hne
    obtain ⟨h1, m, h2⟩ := hmiss v (fun he => hne (by rw [← he]; rfl))
    exact ⟨h1, by rw [h2]; exact Option.noConfusion⟩

/-- Witness for C10 at a concrete unsupported value. -/
theorem C10_checkAndGetMediaTypeHeaderValue_witness :
    ("bogus" ≠ "application/external.dns.webhook+json;version=1")
  ∧ ((checkAndGetMediaTypeHeaderValue "bogus").1 = ""
      ∧ (checkAndGetMediaTypeHeaderValue "bogus").2 ≠ none) :=
  ⟨by decide, (C10_checkAndGetMediaTypeHeaderValue "bogus").2 (by decide)⟩

/-! Helper lemmas about the `GetObject` loop. -/

/-- A stored object whose `Ref` differs from a non-empty request `ref` is
skipped by the loop body. -/
lemma procObj_skip (ty : String) (tmpl : IBObj) (ref qp : String) (o : IBObj)
    (hne : ref ≠ "") (hr : o.ref ≠ ref) :
    procObj ty tmpl ref qp o = some [] := by
  have hr' : ref ≠ o.ref := fun h => hr h.symm
  simp [procObj, hne, hr']

/-- When no stored object of the requested type carries the (non-empty)
request `ref`, the loop returns the empty result. -/
lemma getLoop_skip (ty : String) (tmpl : IBObj) (ref qp : String)
    (objs : List IBObj) (hne : ref ≠ "")
    (h : ∀ o ∈ objs, o.rtype = ty → o.ref ≠ ref) :
    getLoop ty tmpl ref qp objs = some [] := by
  induction objs with
  | nil => rfl
  | cons o rest ih =>
    unfold getLoop
    by_cases hty : o.rtype = ty
    · rw [if_pos hty, procObj_skip ty tmpl ref qp o hne (h o (List.mem_cons_self o rest) hty),
         ih (fun o' ho' hty' => h o' (List.mem_cons_of_mem o ho') hty')]
      rfl
    · rw [if_neg hty]
      exact ih (fun o' ho' hty' => h o' (List.mem_cons_of_mem o ho') hty')

/-- The result value `GetObjectRes` computes for a record-typed template. -/
lemma GetObjectRes_recordType (objects : List IBObj) (zones : List ZoneAuth)
    (ty nm ref qp : String)
    (h5 : ty = recordA ∨ ty = recordCname ∨ ty = recordHost ∨
          ty = recordTxt ∨ ty = recordPtr) :
    GetObjectRes objects zones {emptyObj with rtype := ty, name := nm} ref qp =
      (getLoop ty {emptyObj with rtype := ty, name := nm} ref qp objects).map
        GetRes.recs := by
  show (if ty = recordA ∨ ty = recordCname ∨ ty = recordHost ∨
           ty = recordTxt ∨ ty = recordPtr
        then (getLoop ty {emptyObj with rtype := ty, name := nm} ref qp objects).map
               GetRes.recs
        else if ty = "zone_auth" then some (GetRes.zoneAuths zones)
        else some GetRes.untouched) = _
  rw [if_pos h5]

def c3Obj : IBObj :=
  { emptyObj with rtype := "record:a", name := "old.example.com",
                  ipv4Addr := "1.2.3.4", zone := "example.com" }

def c3S1 : MockIBConnector := (CreateObject emptyConnector c3Obj).1

def c3Ref : String := (CreateObject emptyConnector c3Obj).2.1

/-- C3: deleting a well-formed reference that matches nothing in the object
store succeeds with a nil error and records no deleted endpoint; and
deleting a just-created record succeeds and deleting it again does not
error either. -/
theorem C3_deleteObject_idempotent :
    (∀ (s : MockIBConnector) (ref ty nm : String),
      parseRef ref = some (ty, nm) →
      (∀ o ∈ s.mockInfobloxObjects, o.rtype = ty → o.ref ≠ ref ∧ o.name ≠ nm) →
      ∃ s', DeleteObject s ref = some (s', "", none)
        ∧ s'.deletedEndpoints = s.deletedEndpoints)
  ∧ (DeleteObject c3S1 c3Ref).map (fun r => r.2.2) = some none
  ∧ ((DeleteObject c3S1 c3Ref).bind (fun r => DeleteObject r.1 c3Ref)).map
      (fun r => r.2.2) = some none := by
  refine ⟨?_, by rfl, by rfl⟩
  intro s ref ty nm hp hno
  have hne : ref ≠ "" := by
    intro h
    rw [h] at hp
    exact Option.noConfusion hp
  unfold DeleteObject
  simp only [hp]
  by_cases h5 : ty = recordA ∨ ty = recordCname ∨ ty = recordHost ∨
      ty = recordTxt ∨ ty = recordPtr
  · rw [if_pos h5]
    have hloop : getLoop ty {emptyObj with rtype := ty, name := nm} ref ""
        s.mockInfobloxObjects = some [] :=
      getLoop_skip ty _ ref "" s.mockInfobloxObjects hne
        (fun o ho hty => (hno o ho hty).1)
    have hget : GetObject s {emptyObj with rtype := ty, name := nm} ref "" =
        some ({s with getObjectRequests :=
                 s.getObjectRequests ++ [⟨ty, ref, ""⟩]}, GetRes.recs []) := by
      unfold GetObject
      rw [GetObjectRes_recordType s.mockInfobloxObjects s.mockInfobloxZones
            ty nm ref "" h5, hloop]
      rfl
    rw [hget]
    exact ⟨_, rfl, by simp⟩
  · rw [if_neg h5]
    exact ⟨s, rfl, rfl⟩

/-- Witness for C3: deleting a well-formed reference over an empty store. -/
theorem C3_deleteObject_idempotent_witness :
    parseRef "record:a/eA==:x/default" = some ("record:a", "x")
  ∧ ∃ s', DeleteObject emptyConnector "record:a/eA==:x/default" = some (s', "", none)
      ∧ s'.deletedEndpoints = emptyConnector.deletedEndpoints :=
  ⟨rfl, C3_deleteObject_idempotent.1 emptyConnector "record:a/eA==:x/default"
    "record:a" "x" rfl (by intro o ho; exact absurd ho (List.not_mem_nil o))⟩

/-! Frame lemmas: which state fields each connector call can touch. -/

lemma CreateObject_frame (s : MockIBConnector) (o : IBObj) :
    (CreateObject s o).1.mockInfobloxZones = s.mockInfobloxZones
  ∧ (CreateObject s o).1.deletedEndpoints = s.deletedEndpoints
  ∧ (CreateObject s o).1.updatedEndpoints = s.updatedEndpoints
  ∧ (CreateObject s o).1.getObjectRequests = s.getObjectRequests := by
  unfold CreateObject
  split_ifs <;>
    first
      | exact ⟨rfl, rfl, rfl, rfl⟩
      | (cases dnsReverseAddr o.ipv4Addr <;> exact ⟨rfl, rfl, rfl, rfl⟩)

lemma GetObject_state (s : MockIBConnector) (tmpl : IBObj) (ref qp : String)
    (s1 : MockIBConnector) (res : GetRes) (h : GetObject s tmpl ref qp = some (s1, res)) :
    s1 = {s with getObjectRequests :=
             s.getObjectRequests ++ [⟨tmpl.rtype, ref, qp⟩]} := by
  unfold GetObject at h
  cases hres : GetObjectRes s.mockInfobloxObjects s.mockInfobloxZones tmpl ref qp with
  | none => rw [hres] at h; exact Option.noConfusion h
  | some r =>
    rw [hres] at h
    simp only [Option.map_some', Option.some.injEq, Prod.mk.injEq] at h
    exact h.1.symm

lemma UpdateObject_frame (s : MockIBConnector) (o : IBObj) (ref : String) :
    (UpdateObject s o ref).1.mockInfobloxZones = s.mockInfobloxZones
  ∧ (UpdateObject s o ref).1.mockInfobloxObjects = s.mockInfobloxObjects
  ∧ (UpdateObject s o ref).1.createdEndpoints = s.createdEndpoints
  ∧ (UpdateObject s o ref).1.deletedEndpoints = s.deletedEndpoints
  ∧ (∃ us, (UpdateObject s o ref).1.updatedEndpoints = s.updatedEndpoints ++ us)
  ∧ (UpdateObject s o ref).1.getObjectRequests = s.getObjectRequests := by
  unfold UpdateObject
  split_ifs <;>
    first
      | exact ⟨rfl, rfl, rfl, rfl, ⟨_, rfl⟩, rfl⟩
      | exact ⟨rfl, rfl, rfl, rfl, ⟨[], (List.append_nil _).symm⟩, rfl⟩

lemma DeleteObject_frame (s : MockIBConnector) (ref : String)
    (p : MockIBConnector × String × Option String) (h : DeleteObject s ref = some p) :
    p.1.mockInfobloxZones = s.mockInfobloxZones
  ∧ p.1.mockInfobloxObjects = s.mockInfobloxObjects
  ∧ p.1.createdEndpoints = s.createdEndpoints
  ∧ p.1.updatedEndpoints = s.updatedEndpoints
  ∧ (∃ ds, p.1.deletedEndpoints = s.deletedEndpoints ++ ds)
  ∧ (∃ gs, p.1.getObjectRequests = s.getObjectRequests ++ gs) := by
  unfold DeleteObject at h
  cases hp : parseRef ref with
  | none => rw [hp] at h; exact Option.noConfusion h
  | some pr =>
    obtain ⟨ty, nm⟩ := pr
    simp only [hp] at h
    by_cases h5 : ty = recordA ∨ ty = recordCname ∨ ty = recordHost ∨
        ty = recordTxt ∨ ty = recordPtr
    · rw [if_pos h5] at h
      cases hg : GetObject s {emptyObj with rtype := ty, name := nm} ref "" with
      | none => rw [hg] at h; exact Option.noConfusion h
      | some q =>
        obtain ⟨s1, res⟩ := q
        rw [hg] at h
        have hq := GetObject_state s _ ref "" s1 res hg
        simp only [Option.some.injEq] at h
        rw [← h, hq]
        exact ⟨rfl, rfl, rfl, rfl, ⟨_, rfl⟩, ⟨_, rfl⟩⟩
    · rw [if_neg h5] at h
      simp only [Option.some.injEq] at h
      rw [← h]
      exact ⟨rfl, rfl, rfl, rfl, ⟨[], (List.append_nil _).symm⟩,
             ⟨[], (List.append_nil _).symm⟩⟩

lemma runOp_zones (s s' : MockIBConnector) (op : MockOp)
    (h : runOp s op = some s') :
    s'.mockInfobloxZones = s.mockInfobloxZones := by
  cases op with
  | createOp o =>
    simp only [runOp, Option.some.injEq] at h
    rw [← h]
    exact (CreateObject_frame s o).1
  | getOp t ref qp =>
    simp only [runOp] at h
    cases hg : GetObject s t ref qp with
    | none => rw [hg] at h; exact Option.noConfusion h
    | some p =>
      obtain ⟨ps, pr⟩ := p
      rw [hg] at h
      simp only [Option.map_some', Option.some.injEq] at h
      rw [← h, GetObject_state s t ref qp ps pr hg]
  | updateOp o ref =>
    simp only [runOp, Option.some.injEq] at h
    rw [← h]
    exact (UpdateObject_frame s o ref).1
  | deleteOp ref =>
    simp only [runOp] at h
    cases hd : DeleteObject s ref with
    | none => rw [hd] at h; exact Option.noConfusion h
    | some p =>
      rw [hd] at h
      simp only [Option.map_some', Option.some.injEq] at h
      rw [← h]
      exact (DeleteObject_frame s ref p hd).1

/-- C7: the zone list is never mutated — any sequence of connector calls
that completes leaves `mockInfobloxZones` at its initial value. -/
theorem C7_zones_never_mutated (ops : List MockOp) :
    ∀ s s' : MockIBConnector, runOps s ops = some s' →
      s'.mockInfobloxZones = s.mockInfobloxZones := by
  induction ops with
  | nil =>
    intro s s' h
    simp only [runOps, Option.some.injEq] at h
    rw [← h]
  | cons op rest ih =>
    intro s s' h
    unfold runOps at h
    cases ho : runOp s op with
    | none => rw [ho] at h; exact Option.noConfusion h
    | some s1 =>
      rw [ho] at h
      rw [ih s1 s' h, runOp_zones s s1 op ho]

def c7Obj : IBObj :=
  { emptyObj with rtype := "record:a", name := "w.example.com",
                  ipv4Addr := "5.6.7.8", zone := "example.com" }

def c7Start : MockIBConnector :=
  { emptyConnector with mockInfobloxZones := [⟨"example.com"⟩] }

def c7Ops : List MockOp :=
  [MockOp.createOp c7Obj,
   MockOp.getOp {emptyObj with rtype := "record:a"} "" "zone:example.com",
   MockOp.updateOp c7Obj "some-ref",
   MockOp.deleteOp "record:a/eA==:x/default"]

def c7End : MockIBConnector := (runOps c7Start c7Ops).getD emptyConnector

/-- Witness for C7 on a concrete four-call sequence. -/
theorem C7_zones_never_mutated_witness :
    runOps c7Start c7Ops = some c7End
  ∧ c7End.mockInfobloxZones = c7Start.mockInfobloxZones :=
  ⟨by rfl, C7_zones_never_mutated c7Ops c7Start c7End (by rfl)⟩

/-- C8: `UpdateObject` and `DeleteObject` never modify the object store:
they only append to `updatedEndpoints` / `deletedEndpoints` (and the
`GetObject` request log), so after a successful `DeleteObject` the stored
records — and every `GetObject` result — are unchanged. -/
theorem C8_update_delete_frame :
    (∀ (s : MockIBConnector) (ref : String) p, DeleteObject s ref = some p →
      p.1.mockInfobloxObjects = s.mockInfobloxObjects
      ∧ p.1.createdEndpoints = s.createdEndpoints
      ∧ p.1.updatedEndpoints = s.updatedEndpoints
      ∧ (∃ ds, p.1.deletedEndpoints = s.deletedEndpoints ++ ds)
      ∧ (∃ gs, p.1.getObjectRequests = s.getObjectRequests ++ gs)
      ∧ ∀ (tmpl : IBObj) (r q : String),
          GetObjectRes p.1.mockInfobloxObjects p.1.mockInfobloxZones tmpl r q =
            GetObjectRes s.mockInfobloxObjects s.mockInfobloxZones tmpl r q)
  ∧ (∀ (s : MockIBConnector) (o : IBObj) (ref : String),
      (UpdateObject s o ref).1.mockInfobloxObjects = s.mockInfobloxObjects
      ∧ (UpdateObject s o ref).1.createdEndpoints = s.createdEndpoints
      ∧ (UpdateObject s o ref).1.deletedEndpoints = s.deletedEndpoints
      ∧ (∃ us, (UpdateObject s o ref).1.updatedEndpoints =
                 s.updatedEndpoints ++ us)) := by
  constructor
  · intro s ref p h
    obtain ⟨hz, hobj, hcr, hup, hdel, hreq⟩ := DeleteObject_frame s ref p h
    exact ⟨hobj, hcr, hup, hdel, hreq, fun tmpl r q => by rw [hz, hobj]⟩
  · intro s o ref
    obtain ⟨_, hobj, hcr, hdel, hup, _⟩ := UpdateObject_frame s o ref
    exact ⟨hobj, hcr, hdel, hup⟩

def c8Obj : IBObj :=
  { emptyObj with rtype := "record:a", name := "x", ipv4Addr := "9.9.9.9",
                  ref := "record:a/eA==:x/default", zone := "example.com" }

def c8S : MockIBConnector :=
  { emptyConnector with mockInfobloxObjects := [c8Obj] }

def c8P : MockIBConnector × String × Option String :=
  (DeleteObject c8S "record:a/eA==:x/default").getD (emptyConnector, "", none)

/-- Witness for C8: a concrete delete that records a deletion but leaves the
store intact. -/
theorem C8_update_delete_frame_witness :
    DeleteObject c8S "record:a/eA==:x/default" = some c8P
  ∧ c8P.1.mockInfobloxObjects = c8S.mockInfobloxObjects :=
  ⟨by rfl,
   (C8_update_delete_frame.1 c8S "record:a/eA==:x/default" c8P (by rfl)).1⟩

/-! Membership in a `GetObject` result for empty-`ref`, empty-name calls. -/

/-- The condition under which the loop keeps a stored object of type `ty`
when the request `ref` is empty and the name filter is off: either filter
needle is contained in the query-parameter string, or the object's stored
`Ref` is the empty string (and so equals the empty request `ref`). -/
def c6Cond (ty qp : String) (o : IBObj) : Prop :=
  (∃ n, vnNeedle ty o = some n ∧ containsStr qp n = true)
  ∨ containsStr qp ("zone:" ++ o.zone) = true
  ∨ o.ref = ""

lemma procObj_empty_ref (ty : String) (tmpl : IBObj) (qp : String) (o : IBObj)
    (hns : nameSkip ty tmpl o = false) (hd : List IBObj)
    (h : procObj ty tmpl "" qp o = some hd) :
    (∀ x ∈ hd, x = o) ∧ (o ∈ hd ↔ c6Cond ty qp o) := by
  have hnot : ¬(("" : String) ≠ "" ∧ ("" : String) ≠ o.ref) := fun hc => hc.1 rfl
  have hnsk : ¬(nameSkip ty tmpl o = true) := by
    rw [hns]
    exact Bool.noConfusion
  unfold procObj at h
  rw [if_neg hnot, if_neg hnsk] at h
  cases hv : vnNeedle ty o with
  | none => rw [hv] at h; exact Option.noConfusion h
  | some n =>
    simp only [hv] at h
    by_cases hc1 : containsStr qp n = true
    · rw [if_pos hc1] at h
      simp only [Option.some.injEq] at h
      subst h
      refine ⟨?_, ?_⟩
      · intro x hx
        rcases List.mem_append.mp hx with hx | hx
        · split at hx
          · rcases List.mem_singleton.mp hx with rfl; rfl
          · exact absurd hx (List.not_mem_nil x)
        · exact List.mem_singleton.mp hx
      · constructor
        · intro _; exact Or.inl ⟨n, hv, hc1⟩
        · intro _; exact List.mem_append.mpr (Or.inr (List.mem_singleton.mpr rfl))
    · rw [if_neg hc1] at h
      by_cases hc2 : containsStr qp ("zone:" ++ o.zone) = true
      · rw [if_pos hc2] at h
        simp only [Option.some.injEq] at h
        subst h
        refine ⟨?_, ?_⟩
        · intro x hx
          rcases List.mem_append.mp hx with hx | hx
          · split at hx
            · rcases List.mem_singleton.mp hx with rfl; rfl
            · exact absurd hx (List.not_mem_nil x)
          · exact List.mem_singleton.mp hx
        · constructor
          · intro _; exact Or.inr (Or.inl hc2)
          · intro _; exact List.mem_append.mpr (Or.inr (List.mem_singleton.mpr rfl))
      · rw [if_neg hc2] at h
        simp only [Option.some.injEq] at h
        subst h
        by_cases href : ("" : String) = o.ref
        · rw [if_pos href]
          refine ⟨fun x hx => List.mem_singleton.mp hx, ?_⟩
          constructor
          · intro _; exact Or.inr (Or.inr href.symm)
          · intro _; exact List.mem_singleton.mpr rfl
        · rw [if_neg href]
          refine ⟨fun x hx => absurd hx (List.not_mem_nil x), ?_⟩
          constructor
          · intro hx; exact absurd hx (List.not_mem_nil o)
          · intro hc
            rcases hc with ⟨n', hv', hc'⟩ | hc' | hc'
            · rw [hv] at hv'
              rcases Option.some.inj hv' with rfl
              exact absurd hc' hc1
            · exact absurd hc' hc2
            · exact absurd hc'.symm href

lemma getLoop_mem (ty : String) (tmpl : IBObj) (qp : String)
    (hns : ∀ o, nameSkip ty tmpl o = false) :
    ∀ (objs res : List IBObj), getLoop ty tmpl "" qp objs = some res →
      (∀ x ∈ res, x ∈ objs ∧ x.rtype = ty)
      ∧ (∀ o ∈ objs, o.rtype = ty → (o ∈ res ↔ c6Cond ty qp o)) := by
  intro objs
  induction objs with
  | nil =>
    intro res h
    simp only [getLoop, Option.some.injEq] at h
    subst h
    exact ⟨fun x hx => absurd hx (List.not_mem_nil x),
           fun o ho => absurd ho (List.not_mem_nil o)⟩
  | cons o rest ih =>
    intro res h
    unfold getLoop at h
    by_cases hty : o.rtype = ty
    · rw [if_pos hty] at h
      cases hp : procObj ty tmpl "" qp o with
      | none => rw [hp] at h; exact Option.noConfusion h
      | some hd =>
        rw [hp] at h
        cases hl : getLoop ty tmpl "" qp rest with
        | none => rw [hl] at h; exact Option.noConfusion h
        | some tl =>
          rw [hl] at h
          simp only [Option.some.injEq] at h
          subst h
          obtain ⟨hhd1, hhd2⟩ := procObj_empty_ref ty tmpl qp o (hns o) hd hp
          obtain ⟨ihs, ihm⟩ := ih tl hl
          refine ⟨?_, ?_⟩
          · intro x hx
            rcases List.mem_append.mp hx with hx | hx
            · rcases hhd1 x hx with rfl
              exact ⟨List.mem_cons_self _ _, hty⟩
            · obtain ⟨hx1, hx2⟩ := ihs x hx
              exact ⟨List.mem_cons_of_mem o hx1, hx2⟩
          · intro o' ho' hty'
            rcases List.mem_cons.mp ho' with rfl | ho'
            · constructor
              · intro hmem
                rcases List.mem_append.mp hmem with hmem | hmem
                · exact hhd2.mp hmem
                · obtain ⟨h1, h2⟩ := ihs o' hmem
                  exact (ihm o' h1 h2).mp hmem
              · intro hc
                exact List.mem_append.mpr (Or.inl (hhd2.mpr hc))
            · have hiff := ihm o' ho' hty'
              constructor
              · intro hmem
                rcases List.mem_append.mp hmem with hmem | hmem
                · rcases hhd1 o' hmem with rfl
                  exact hhd2.mp hmem
                · exact hiff.mp hmem
              · intro hc
                exact List.mem_append.mpr (Or.inr (hiff.mpr hc))
    · rw [if_neg hty] at h
      obtain ⟨ihs, ihm⟩ := ih res h
      refine ⟨?_, ?_⟩
      · intro x hx
        obtain ⟨h1, h2⟩ := ihs x hx
        exact ⟨List.mem_cons_of_mem o h1, h2⟩
      · intro o' ho' hty'
        rcases List.mem_cons.mp ho' with rfl | ho'
        · exact absurd hty' hty
        · exact ihm o' ho' hty'

def c6Obj : IBObj :=
  { emptyObj with rtype := "record:txt", ref := "", name := "n", text := "t",
                  zone := "z" }

/-- C6 counterexample: a `GetObject` call with empty `ref`, empty template
name and an empty query-parameter string includes a stored TXT object whose
stored `Ref` is `""` (the shape `CreateObject` itself produces for TXT
records), although the query-parameter string contains neither the exact
value-plus-name filter nor the zone-only filter — refuting the claimed
"if and only if". -/
theorem C6_getObject_filters_counterexample :
    GetObjectRes [c6Obj] [] {emptyObj with rtype := "record:txt"} "" ""
      = some (GetRes.recs [c6Obj])
  ∧ containsStr "" ("text:" ++ c6Obj.text ++ " name:" ++ c6Obj.name) = false
  ∧ containsStr "" ("zone:" ++ c6Obj.zone) = false :=
  ⟨rfl, rfl, rfl⟩

/-- C6 (amended): for a `GetObject` call with empty `ref` and empty template
name that completes without panicking, a stored object of the requested
record type is included in the result if and only if the query-parameter
string contains the exact value-plus-name filter for that object or the
zone-only filter `zone:<zone>`, **or** the object's stored `Ref` is the
empty string (which the empty request `ref` matches). -/
theorem C6_getObject_filters_amended (objects : List IBObj)
    (zones : List ZoneAuth) (tmpl : IBObj) (qp : String) (res : List IBObj)
    (hname : tmpl.name = "") (hptr : tmpl.ptrdName = "")
    (h : GetObjectRes objects zones tmpl "" qp = some (GetRes.recs res)) :
    ∀ o ∈ objects, o.rtype = tmpl.rtype →
      (o ∈ res ↔ c6Cond tmpl.rtype qp o) := by
  have hns : ∀ o, nameSkip tmpl.rtype tmpl o = false := by
    intro o
    unfold nameSkip
    by_cases hp : tmpl.rtype = recordPtr
    · rw [if_pos hp]
      simp [hptr]
    · rw [if_neg hp]
      simp [hname]
  unfold GetObjectRes at h
  by_cases h5 : tmpl.rtype = recordA ∨ tmpl.rtype = recordCname ∨
      tmpl.rtype = recordHost ∨ tmpl.rtype = recordTxt ∨ tmpl.rtype = recordPtr
  · rw [if_pos h5] at h
    cases hl : getLoop tmpl.rtype tmpl "" qp objects with
    | none => rw [hl] at h; exact Option.noConfusion h
    | some l =>
      rw [hl] at h
      simp only [Option.map_some', Option.some.injEq, GetRes.recs.injEq] at h
      subst h
      exact (getLoop_mem tmpl.rtype tmpl qp hns objects l hl).2
  · rw [if_neg h5] at h
    by_cases hz : tmpl.rtype = "zone_auth"
    · rw [if_pos hz] at h
      exact GetRes.noConfusion (Option.some.inj h)
    · rw [if_neg hz] at h
      exact GetRes.noConfusion (Option.some.inj h)

/-- Witness for the amended C6 at the counterexample's concrete call. -/
theorem C6_getObject_filters_amended_witness :
    ({emptyObj with rtype := "record:txt"} : IBObj).name = ""
  ∧ ({emptyObj with rtype := "record:txt"} : IBObj).ptrdName = ""
  ∧ GetObjectRes [c6Obj] [] {emptyObj with rtype := "record:txt"} "" ""
      = some (GetRes.recs [c6Obj])
  ∧ (c6Obj ∈ [c6Obj] ↔ c6Cond ({emptyObj with rtype := "record:txt"} : IBObj).rtype "" c6Obj) :=
  ⟨rfl, rfl, rfl,
   C6_getObject_filters_amended [c6Obj] [] {emptyObj with rtype := "record:txt"}
     "" [c6Obj] rfl rfl rfl c6Obj (List.mem_singleton.mpr rfl) rfl⟩

/-! The longest-match invariant of the `findZone` scan. -/

lemma findZone_aux (name : String) (zones : List ZoneAuth) :
    ∀ acc : Option ZoneAuth,
      ((zones.foldl (fzStep name) acc = none) ↔
        (acc = none ∧ ∀ z ∈ zones, zoneMatches name z = false))
    ∧ (∀ b, zones.foldl (fzStep name) acc = some b →
        (acc = some b ∨ (b ∈ zones ∧ zoneMatches name b = true))
        ∧ (∀ a, acc = some a → a.fqdn.length ≤ b.fqdn.length)
        ∧ (∀ z ∈ zones, zoneMatches name z = true →
             z.fqdn.length ≤ b.fqdn.length)) := by
  induction zones with
  | nil =>
    intro acc
    refine ⟨?_, ?_⟩
    · constructor
      · intro h
        exact ⟨h, fun z hz => absurd hz (List.not_mem_nil z)⟩
      · intro h
        exact h.1
    · intro b hb
      simp only [List.foldl] at hb
      refine ⟨Or.inl hb, ?_, ?_⟩
      · intro a ha
        rw [ha] at hb
        rw [Option.some.inj hb]
      · intro z hz
        exact absurd hz (List.not_mem_nil z)
  | cons z zs ih =>
    intro acc
    simp only [List.foldl_cons]
    by_cases hm : zoneMatches name z = true
    · cases acc with
      | none =>
        have hstep : fzStep name none z = some z := by
          unfold fzStep
          rw [if_pos hm]
        rw [hstep]
        obtain ⟨ih1, ih2⟩ := ih (some z)
        refine ⟨?_, ?_⟩
        · rw [ih1]
          constructor
          · rintro ⟨h', _⟩
            exact Option.noConfusion h'
          · rintro ⟨_, hall⟩
            have := hall z (List.mem_cons_self z zs)
            rw [hm] at this
            exact Bool.noConfusion this
        · intro b hb
          obtain ⟨hfirst, hsecond, hthird⟩ := ih2 b hb
          refine ⟨?_, ?_, ?_⟩
          · rcases hfirst with h' | ⟨hmem, hmb⟩
            · rcases Option.some.inj h' with rfl
              exact Or.inr ⟨List.mem_cons_self _ _, hm⟩
            · exact Or.inr ⟨List.mem_cons_of_mem z hmem, hmb⟩
          · intro a ha
            exact Option.noConfusion ha
          · intro z' hz' hmz'
            rcases List.mem_cons.mp hz' with rfl | hz'
            · exact hsecond z' rfl
            · exact hthird z' hz' hmz'
      | some b0 =>
        by_cases hlt : b0.fqdn.length < z.fqdn.length
        · have hstep : fzStep name (some b0) z = some z := by
            unfold fzStep
            rw [if_pos hm]
            exact if_pos hlt
          rw [hstep]
          obtain ⟨ih1, ih2⟩ := ih (some z)
          refine ⟨?_, ?_⟩
          · rw [ih1]
            constructor
            · rintro ⟨h', _⟩
              exact Option.noConfusion h'
            · rintro ⟨h', _⟩
              exact Option.noConfusion h'
          · intro b hb
            obtain ⟨hfirst, hsecond, hthird⟩ := ih2 b hb
            have hzb : z.fqdn.length ≤ b.fqdn.length := hsecond z rfl
            refine ⟨?_, ?_, ?_⟩
            · rcases hfirst with h' | ⟨hmem, hmb⟩
              · rcases Option.some.inj h' with rfl
                exact Or.inr ⟨List.mem_cons_self _ _, hm⟩
              · exact Or.inr ⟨List.mem_cons_of_mem z hmem, hmb⟩
            · intro a ha
              rcases Option.some.inj ha with rfl
              exact le_trans (le_of_lt hlt) hzb
            · intro z' hz' hmz'
              rcases List.mem_cons.mp hz' with rfl | hz'
              · exact hzb
              · exact hthird z' hz' hmz'
        · have hstep : fzStep name (some b0) z = some b0 := by
            unfold fzStep
            rw [if_pos hm]
            exact if_neg hlt
          rw [hstep]
          obtain ⟨ih1, ih2⟩ := ih (some b0)
          refine ⟨?_, ?_⟩
          · rw [ih1]
            constructor
            · rintro ⟨h', _⟩
              exact Option.noConfusion h'
            · rintro ⟨h', _⟩
              exact Option.noConfusion h'
          · intro b hb
            obtain ⟨hfirst, hsecond, hthird⟩ := ih2 b hb
            refine ⟨?_, ?_, ?_⟩
            · rcases hfirst with h' | ⟨hmem, hmb⟩
              · exact Or.inl h'
              · exact Or.inr ⟨List.mem_cons_of_mem z hmem, hmb⟩
            · intro a ha
              rcases Option.some.inj ha with rfl
              exact hsecond b0 rfl
            · intro z' hz' hmz'
              rcases List.mem_cons.mp hz' with rfl | hz'
              · exact le_trans (Nat.le_of_not_lt hlt) (hsecond b0 rfl)
              · exact hthird z' hz' hmz'
    · have hmf : zoneMatches name z = false := by
        revert hm
        cases zoneMatches name z <;> simp
      have hstep : fzStep name acc z = acc := by
        unfold fzStep
        rw [if_neg hm]
      rw [hstep]
      obtain ⟨ih1, ih2⟩ := ih acc
      refine ⟨?_, ?_⟩
      · rw [ih1]
        constructor
        · rintro ⟨h1, h2⟩
          refine ⟨h1, ?_⟩
          intro z' hz'
          rcases List.mem_cons.mp hz' with rfl | hz'
          · exact hmf
          · exact h2 z' hz'
        · rintro ⟨h1, h2⟩
          exact ⟨h1, fun z' hz' => h2 z' (List.mem_cons_of_mem z hz')⟩
      · intro b hb
        obtain ⟨hfirst, hsecond, hthird⟩ := ih2 b hb
        refine ⟨?_, hsecond, ?_⟩
        · rcases hfirst with h' | ⟨hmem, hmb⟩
          · exact Or.inl h'
          · exact Or.inr ⟨List.mem_cons_of_mem z hmem, hmb⟩
        · intro z' hz' hmz'
          rcases List.mem_cons.mp hz' with rfl | hz'
          · exact absurd hmz' hm
          · exact hthird z' hz' hmz'

/-- C2: forward zone selection returns, among the zones whose `Fqdn` equals
the name or is a dot-boundary suffix of it, one that matches and has maximal
`Fqdn` length, and returns `none` exactly when no zone matches; on zones
`{example.com, lvl1.example.com}` it picks `lvl1.example.com` for
`x.lvl1.example.com` and `example.com` for `x.example.com`. -/
theorem C2_findZone_longest_suffix :
    (∀ (zones : List ZoneAuth) (name : String) (z : ZoneAuth),
      findZone zones name = some z →
        z ∈ zones ∧ zoneMatches name z = true
        ∧ ∀ z' ∈ zones, zoneMatches name z' = true →
            z'.fqdn.length ≤ z.fqdn.length)
  ∧ (∀ (zones : List ZoneAuth) (name : String),
      findZone zones name = none ↔ ∀ z ∈ zones, zoneMatches name z = false)
  ∧ findZone [⟨"example.com"⟩, ⟨"lvl1.example.com"⟩] "x.lvl1.example.com"
      = some ⟨"lvl1.example.com"⟩
  ∧ findZone [⟨"example.com"⟩, ⟨"lvl1.example.com"⟩] "x.example.com"
      = some ⟨"example.com"⟩ := by
  refine ⟨?_, ?_, by rfl, by rfl⟩
  · intro zones name z h
    obtain ⟨hfirst, _, hthird⟩ := (findZone_aux name zones none).2 z h
    rcases hfirst with h' | ⟨hmem, hmz⟩
    · exact Option.noConfusion h'
    · exact ⟨hmem, hmz, hthird⟩
  · intro zones name
    rw [show findZone zones name = zones.foldl (fzStep name) none from rfl,
        (findZone_aux name zones none).1]
    constructor
    · intro h
      exact h.2
    · intro h
      exact ⟨rfl, h⟩

/-- Witness for C2 at the spec's concrete example. -/
theorem C2_findZone_longest_suffix_witness :
    findZone [⟨"example.com"⟩, ⟨"lvl1.example.com"⟩] "x.example.com"
      = some ⟨"example.com"⟩
  ∧ (⟨"example.com"⟩ : ZoneAuth) ∈
      [(⟨"example.com"⟩ : ZoneAuth), ⟨"lvl1.example.com"⟩]
  ∧ zoneMatches "x.example.com" ⟨"example.com"⟩ = true :=
  ⟨rfl,
   (C2_findZone_longest_suffix.1 [⟨"example.com"⟩, ⟨"lvl1.example.com"⟩]
     "x.example.com" ⟨"example.com"⟩ rfl).1,
   (C2_findZone_longest_suffix.1 [⟨"example.com"⟩, ⟨"lvl1.example.com"⟩]
     "x.example.com" ⟨"example.com"⟩ rfl).2.1⟩

example : base64Std (utf8Bytes "example.com") = "ZXhhbXBsZS5jb20=" := by rfl
example : base64Std (utf8Bytes "old.example.com") = "b2xkLmV4YW1wbGUuY29t" := by rfl
example : dnsReverseAddr "1.2.3.4" = some "4.3.2.1.in-addr.arpa." := by rfl
example : dnsReverseAddr "hello" = none := by rfl
example : dnsReverseAddr "1.2.3.04" = none := by rfl
example : dnsReverseAddr "1.2.3.444" = none := by rfl
example : containsStr "zone:example.com view:x" "zone:example.com" = true := by rfl
example : containsStr "" "zone:" = false := by rfl
example : endsWithStr "x.example.com" ".example.com" = true := by rfl

end InfobloxWebhook
